import Mathlib

/-!
Shallow embedding of `ST0las2hdf_perfect_kana_pdal.py`, a LAS ↔ HDF5 point-cloud
converter, together with theorems checking the specification's claims.

Modelling conventions:
* A point-cloud column set (PDAL's structured view, or the dict built from the
  HDF5 datasets) is an association list `List (String × List Int)` from
  dimension name to the column's values.  Numeric payloads are modelled as
  integers: every non-coordinate LAS dimension is integer-typed, and the
  X/Y/Z coordinates are carried on the encoder's fixed integer grid, so the
  encoder's coordinate scaling is treated as exact.
* An HDF5 container is an association list from dataset name to dataset
  content; a dataset is either a typed column (with its recorded chunk
  length) or a scalar string (used for the `metadata` entry).
* Failure is modelled with `Except ConvErr`; the Python reference catches
  every exception broadly and returns `False`, so an `Except.error` value
  marks "the function printed an error and returned False, writing no
  output", with the constructor recording the raise site's error kind.
* Python `str.lower`/`str.endswith` and `int()` truncation are embedded as
  executable Lean functions (`py_lower`, `py_endswith`, `py_int_half`).
-/

namespace Las2Hdf

/-- Content of one HDF5 dataset: a typed numeric column together with the
chunk length it was created with, or a scalar string payload (the
`metadata` entry written by `hdf.create_dataset('metadata', data=json.dumps(...))`). -/
inductive DsetVal where
  | column (vals : List Int) (chunks : Nat)
  | scalar (payload : String)
deriving DecidableEq

/-- A named column set: the in-memory point cloud representation. -/
abbrev Columns := List (String × List Int)

/-- An HDF5 container file: named datasets. -/
abbrev Container := List (String × DsetVal)

/-- Error kinds, tagging the raise site of each failure the reference code
catches broadly (the spec's `SchemaError` / `IOError` /
`UnsupportedConversionError` taxonomy). -/
inductive ConvErr where
  | schemaError (dim : String)
  | ioError
  | unsupportedConversion
deriving DecidableEq

/-- Chunk length chosen by the writer for a column of length `n`:
`chunk_size = min(len(view[dim]), 1000000)` (source line 57). -/
def chunk_size (n : Nat) : Nat := min n 1000000

/-- Forward conversion, `convert_las_to_hdf5` (source lines 55-65): for each
dimension of the ingested view, create one gzip/shuffle dataset named after
the dimension with chunk length `chunk_size`, then create the scalar
`metadata` dataset holding the serialized pipeline metadata. -/
def convert_las_to_hdf5 (view : Columns) (meta : String) : Container :=
  (view.map fun nv => (nv.1, DsetVal.column nv.2 (chunk_size nv.2.length)))
    ++ [("metadata", DsetVal.scalar meta)]

/-- Reader half of `convert_hdf5_to_las`, source line 86:
`data = {key: np.array(hdf[key][:]) for key in hdf.keys() if key != 'metadata'}`.
Every dataset whose name is not exactly `metadata` is loaded as a typed
column under its dataset name; slicing a scalar dataset raises, which the
broad handler turns into a failed conversion (`ioError`). -/
def read_data : Container → Except ConvErr Columns
  | [] => .ok []
  | (k, v) :: rest =>
    if k = "metadata" then read_data rest
    else
      match v with
      | DsetVal.column vals _ =>
        match read_data rest with
        | .ok d => .ok ((k, vals) :: d)
        | .error e => .error e
      | DsetVal.scalar _ => .error ConvErr.ioError

/-- The empty metadata blob: `json.loads` never runs and the reference uses
the literal empty dict, serialized here as the two-character JSON text. -/
def emptyMetadata : String := "\x7b\x7d"

/-- Metadata half of `convert_hdf5_to_las`, source line 87:
`metadata = json.loads(hdf['metadata'][()]) if 'metadata' in hdf else {}`.
Parsing the serialized blob is the inverse of serializing it, so the parsed
blob is modelled by the stored string itself; a (malformed) column-valued
`metadata` dataset makes `json.loads` raise. -/
def read_metadata (file : Container) : Except ConvErr String :=
  match file.lookup "metadata" with
  | some (DsetVal.scalar s) => .ok s
  | some (DsetVal.column _ _) => .error ConvErr.ioError
  | none => .ok emptyMetadata

/-- The optional LAS dimensions copied by the assembler's if-chain, in source
order (source lines 104-121). -/
def optional_fields : List String :=
  ["Intensity", "ReturnNumber", "NumberOfReturns", "ScanDirectionFlag",
   "EdgeOfFlightLine", "Classification", "ScanAngleRank", "UserData",
   "PointSourceId"]

/-- One step of the assembler's optional-dimension if-chain:
`if f in data: las.<attr f> = data[f]`. -/
def addOpt (data : Columns) (cloud : Columns) (f : String) : Columns :=
  match data.lookup f with
  | some v => cloud ++ [(f, v)]
  | none => cloud

/-- The assembler's nine optional-field assignments, applied in source
order (source lines 104-121). -/
def add_optionals (data : Columns) (cloud : Columns) : Columns :=
  optional_fields.foldl (addOpt data) cloud

/-- The assembler's color block (source lines 124-127):
`if 'Red' in data and 'Green' in data and 'Blue' in data:` assign all
three channels, else assign none of them. -/
def rgb_group (data : Columns) : Columns :=
  match data.lookup "Red", data.lookup "Green", data.lookup "Blue" with
  | some r, some g, some b => [("Red", r), ("Green", g), ("Blue", b)]
  | _, _, _ => []

/-- The point-assembly phase of `convert_hdf5_to_las` (source lines 95-127):
a fixed point-format-3 / version 1.2 LAS record is populated from the
required `X`/`Y`/`Z` columns (`data['X']` raising `KeyError` — the spec's
`SchemaError` — when absent, with `X` accessed first, then `Y`, then `Z`),
then the optional dimensions present, then the all-or-nothing color group.
The result lists the populated dimensions of the written LAS file. -/
def assemble_las (data : Columns) : Except ConvErr Columns :=
  match data.lookup "X" with
  | none => .error (ConvErr.schemaError "X")
  | some xs =>
    match data.lookup "Y" with
    | none => .error (ConvErr.schemaError "Y")
    | some ys =>
      match data.lookup "Z" with
      | none => .error (ConvErr.schemaError "Z")
      | some zs =>
        .ok (add_optionals data [("X", xs), ("Y", ys), ("Z", zs)]
              ++ rgb_group data)

/-- Inverse conversion, `convert_hdf5_to_las` (source lines 77-141), in the
source's evaluation order: load the non-`metadata` datasets (line 86), load
and parse the metadata blob (line 87, its value unused afterwards), then
assemble and write the LAS file (lines 95-129).  An `.ok` value is the
dimension content of the written LAS file; any `.error` means the broad
handler caught the exception, printed it, returned `False`, and no LAS file
was written (the write at line 129 is the last step). -/
def convert_hdf5_to_las (file : Container) : Except ConvErr Columns :=
  match read_data file with
  | .error e => .error e
  | .ok data =>
    match read_metadata file with
    | .error e => .error e
    | .ok _ => assemble_las data

/-- Python `str.lower()` on a path, as a character list. -/
def py_lower (s : String) : List Char := s.data.map Char.toLower

/-- Python `str.endswith(suffix)`. -/
def py_endswith (s : List Char) (suffix : String) : Bool :=
  suffix.data.isSuffixOf s

/-- Outcome of the dispatcher: which pipeline ran (with its boolean result),
or the unsupported-pairing rejection, which runs no pipeline at all. -/
inductive DispatchResult where
  | ranForward (ok : Bool)
  | ranInverse (ok : Bool)
  | unsupported
deriving DecidableEq

/-- The dispatcher `convert_single_file` (source lines 143-151),
parametrized by the two pipelines so that the unsupported branch's
independence from them is expressible:
`.las → .hdf5` (after lower-casing) runs the forward pipeline,
`.hdf5 → .las` runs the inverse pipeline, and any other pairing prints
`Unsupported file conversion` and returns `False` without any further
action. -/
def convert_single_file (fwd inv : String → String → Bool)
    (input_file output_file : String) : DispatchResult :=
  if py_endswith (py_lower input_file) ".las"
      && py_endswith (py_lower output_file) ".hdf5" then
    DispatchResult.ranForward (fwd input_file output_file)
  else if py_endswith (py_lower input_file) ".hdf5"
      && py_endswith (py_lower output_file) ".las" then
    DispatchResult.ranInverse (inv input_file output_file)
  else
    DispatchResult.unsupported

/-- The Boolean each branch of `convert_single_file` returns to its caller. -/
def dispatch_bool : DispatchResult → Bool
  | DispatchResult.ranForward b => b
  | DispatchResult.ranInverse b => b
  | DispatchResult.unsupported => false

/-- The parsed CLI arguments of `main` (source lines 154-162). -/
structure Args where
  input_file : String
  output_file : String
  to_las : Bool
  num_processes : Int
  max_memory : Option Rat

/-- Python `int(m / 2)` for `m : ℚ`: exact rational division by the
2 GB-per-process estimate, truncated toward zero as Python's `int()` does
(source line 167, with `mem_per_process = 2`). -/
def py_int_half (m : Rat) : Int := Int.tdiv m.num (2 * m.den)

/-- The `--max-memory` adjustment of `main` (source lines 164-168): when a
memory budget is given, `args.num_processes = min(args.num_processes,
int(args.max_memory / mem_per_process))`; otherwise the requested count is
kept. -/
def adjusted_num_processes (num_processes : Int) (max_memory : Option Rat) : Int :=
  match max_memory with
  | none => num_processes
  | some m => min num_processes (py_int_half m)

/-- The two conversion pipelines `main` can invoke. -/
inductive Pipeline where
  | lasToHdf5
  | hdf5ToLas
deriving DecidableEq

/-- The pipeline selection of `main` (source lines 174-177):
`if args.to_las: convert_hdf5_to_las(...) else: convert_las_to_hdf5(...)`. -/
def main_pipeline_choice (a : Args) : Pipeline :=
  if a.to_las then Pipeline.hdf5ToLas else Pipeline.lasToHdf5

/-- The summary block of `main` (source lines 179-183) together with the
process exit status: each branch prints one line, `main` then returns
normally, and the interpreter exits with status 0 — the code contains no
`sys.exit` call, so both branches terminate the process with status 0. -/
def main_summary (result : Bool) : String × Nat :=
  if result then ("Conversion completed successfully.", 0)
  else ("Conversion failed.", 0)

/-- The dimensions the inverse path's fixed schema materializes, given the
column set read from the container: always `X`,`Y`,`Z`; each optional
dimension that is present; and the whole color group exactly when all of
`Red`, `Green`, `Blue` are present.  Statement apparatus for the amended
round-trip claim. -/
def handled_dims (data : Columns) : List String :=
  ["X", "Y", "Z"]
    ++ optional_fields.filter (fun f => (data.lookup f).isSome)
    ++ (if ((data.lookup "Red").isSome ∧ (data.lookup "Green").isSome
            ∧ (data.lookup "Blue").isSome)
        then ["Red", "Green", "Blue"] else [])

/-- The first required dimension missing from a column set, in the
assembler's access order `X`, `Y`, `Z` (source lines 99-101).  Statement
apparatus naming the dimension whose access raises. -/
def first_missing (data : Columns) : String :=
  if data.lookup "X" = none then "X"
  else if data.lookup "Y" = none then "Y"
  else "Z"

/-- Whether an `Except`-modelled conversion succeeded (wrote its output). -/
def conv_ok : Except ConvErr Columns → Bool
  | .ok _ => true
  | .error _ => false

/-- Look a dimension up in the output of an `Except`-modelled conversion;
`none` when the conversion failed or the dimension is absent. -/
def conv_lookup (r : Except ConvErr Columns) (d : String) : Option (List Int) :=
  match r with
  | .ok out => out.lookup d
  | .error _ => none

/-! ## Association-list helper lemmas -/

theorem lookup_append {β : Type} (l₁ l₂ : List (String × β)) (k : String) :
    (l₁ ++ l₂).lookup k = ((l₁.lookup k).or (l₂.lookup k)) := by
  induction l₁ with
  | nil => simp [List.lookup]
  | cons p rest ih =>
    by_cases h : k == p.1
    · simp [List.lookup, h]
    · simp [List.lookup, h, ih]

theorem lookup_eq_none_of_not_mem_keys {β : Type} (l : List (String × β))
    (k : String) (h : k ∉ l.map Prod.fst) : l.lookup k = none := by
  induction l with
  | nil => rfl
  | cons p rest ih =>
    simp only [List.map_cons, List.mem_cons] at h
    push_neg at h
    have hk : (k == p.1) = false := beq_eq_false_iff_ne.mpr h.1
    simp [List.lookup, hk, ih h.2]

theorem lookup_xyz_ne (xs ys zs : List Int) (k : String)
    (hX : k ≠ "X") (hY : k ≠ "Y") (hZ : k ≠ "Z") :
    List.lookup k [("X", xs), ("Y", ys), ("Z", zs)] = none := by
  simp [List.lookup, beq_eq_false_iff_ne.mpr hX, beq_eq_false_iff_ne.mpr hY,
    beq_eq_false_iff_ne.mpr hZ]

/-! ## Lemmas about the optional-field chain -/

theorem addOpt_lookup_ne (data cloud : Columns) (f k : String) (h : k ≠ f) :
    (addOpt data cloud f).lookup k = cloud.lookup k := by
  unfold addOpt
  cases hf : data.lookup f with
  | none => rfl
  | some v =>
    rw [lookup_append]
    have : List.lookup k [(f, v)] = none := by
      simp [List.lookup, beq_eq_false_iff_ne.mpr h]
    rw [this, Option.or_none]

theorem addOpt_lookup_self (data cloud : Columns) (f : String)
    (h : cloud.lookup f = none) :
    (addOpt data cloud f).lookup f = data.lookup f := by
  unfold addOpt
  cases hf : data.lookup f with
  | none => exact h
  | some v =>
    rw [lookup_append, h]
    simp [List.lookup]

theorem foldl_addOpt_not_mem (data : Columns) (fs : List String) (cloud : Columns)
    (k : String) (h : k ∉ fs) :
    (fs.foldl (addOpt data) cloud).lookup k = cloud.lookup k := by
  induction fs generalizing cloud with
  | nil => rfl
  | cons f rest ih =>
    simp only [List.mem_cons] at h
    push_neg at h
    rw [List.foldl_cons, ih _ h.2, addOpt_lookup_ne _ _ _ _ h.1]

theorem foldl_addOpt_mem (data : Columns) (fs : List String) (cloud : Columns)
    (k : String) (hnd : fs.Nodup) (hk : k ∈ fs) (hc : cloud.lookup k = none) :
    (fs.foldl (addOpt data) cloud).lookup k = data.lookup k := by
  induction fs generalizing cloud with
  | nil => cases hk
  | cons f rest ih =>
    rw [List.foldl_cons]
    rcases List.mem_cons.mp hk with rfl | hmem
    · have hnotin : k ∉ rest := (List.nodup_cons.mp hnd).1
      rw [foldl_addOpt_not_mem _ _ _ _ hnotin, addOpt_lookup_self _ _ _ hc]
    · by_cases hkf : k = f
      · subst hkf
        have hnotin : k ∉ rest := (List.nodup_cons.mp hnd).1
        exact absurd hmem hnotin
      · exact ih _ (List.nodup_cons.mp hnd).2 hmem
          (by rw [addOpt_lookup_ne _ _ _ _ hkf]; exact hc)

theorem optional_fields_nodup : optional_fields.Nodup := by decide

theorem optional_fields_ne_special :
    ∀ f ∈ optional_fields, f ≠ "X" ∧ f ≠ "Y" ∧ f ≠ "Z"
      ∧ f ≠ "Red" ∧ f ≠ "Green" ∧ f ≠ "Blue" := by decide

/-! ## Lemmas about the color group -/

theorem rgb_group_all (data : Columns) (r g b : List Int)
    (hr : data.lookup "Red" = some r) (hg : data.lookup "Green" = some g)
    (hb : data.lookup "Blue" = some b) :
    rgb_group data = [("Red", r), ("Green", g), ("Blue", b)] := by
  unfold rgb_group
  rw [hr, hg, hb]

theorem rgb_group_not_all (data : Columns)
    (h : data.lookup "Red" = none ∨ data.lookup "Green" = none
      ∨ data.lookup "Blue" = none) :
    rgb_group data = [] := by
  unfold rgb_group
  cases hr : data.lookup "Red" <;> cases hg : data.lookup "Green"
    <;> cases hb : data.lookup "Blue" <;> simp_all

theorem rgb_group_lookup_ne (data : Columns) (k : String)
    (hr : k ≠ "Red") (hg : k ≠ "Green") (hb : k ≠ "Blue") :
    (rgb_group data).lookup k = none := by
  unfold rgb_group
  cases data.lookup "Red" <;> cases data.lookup "Green"
    <;> cases data.lookup "Blue" <;>
    simp [List.lookup, beq_eq_false_iff_ne.mpr hr, beq_eq_false_iff_ne.mpr hg,
      beq_eq_false_iff_ne.mpr hb]

/-! ## Lemmas about the reader and the forward/inverse composition -/

theorem read_data_forward (view : Columns) (meta : String)
    (h : "metadata" ∉ view.map Prod.fst) :
    read_data (convert_las_to_hdf5 view meta) = .ok view := by
  induction view with
  | nil => rfl
  | cons nv rest ih =>
    simp only [List.map_cons, List.mem_cons] at h
    push_neg at h
    have h1 : nv.1 ≠ "metadata" := fun e => h.1 e.symm
    unfold convert_las_to_hdf5 at ih ⊢
    simp only [List.map_cons, List.cons_append]
    unfold read_data
    rw [if_neg h1, ih h.2]

theorem read_metadata_forward (view : Columns) (meta : String)
    (h : "metadata" ∉ view.map Prod.fst) :
    read_metadata (convert_las_to_hdf5 view meta) = .ok meta := by
  unfold read_metadata convert_las_to_hdf5
  rw [lookup_append]
  have hkeys : "metadata" ∉ (view.map fun nv =>
      (nv.1, DsetVal.column nv.2 (chunk_size nv.2.length))).map Prod.fst := by
    simpa using h
  rw [lookup_eq_none_of_not_mem_keys _ _ hkeys]
  simp [List.lookup]

theorem read_data_ok_eq (file : Container) (data : Columns)
    (h : read_data file = .ok data) :
    data = file.filterMap fun kv =>
      if kv.1 = "metadata" then none
      else match kv.2 with
        | DsetVal.column vs _ => some (kv.1, vs)
        | DsetVal.scalar _ => none := by
  induction file generalizing data with
  | nil =>
    simp only [read_data] at h
    cases h
    rfl
  | cons kv rest ih =>
    obtain ⟨k, v⟩ := kv
    by_cases hk : k = "metadata"
    · subst hk
      simp only [read_data, if_pos rfl] at h
      simpa using ih data h
    · simp only [read_data, if_neg hk] at h
      cases v with
      | column vs ch =>
        cases hrest : read_data rest with
        | ok d =>
          rw [hrest] at h
          cases h
          simp only [List.filterMap_cons, if_neg hk]
          exact congrArg _ (ih d hrest)
        | error e => rw [hrest] at h; cases h
      | scalar s => cases h

theorem assemble_las_ok (data : Columns) (xs ys zs : List Int)
    (hx : data.lookup "X" = some xs) (hy : data.lookup "Y" = some ys)
    (hz : data.lookup "Z" = some zs) :
    assemble_las data
      = .ok (add_optionals data [("X", xs), ("Y", ys), ("Z", zs)]
              ++ rgb_group data) := by
  unfold assemble_las
  rw [hx, hy, hz]

/-! ## Lookup lemmas about the assembled point cloud -/

theorem assembled_lookup_x (data : Columns) (xs ys zs : List Int) :
    (add_optionals data [("X", xs), ("Y", ys), ("Z", zs)]
      ++ rgb_group data).lookup "X" = some xs := by
  rw [lookup_append]
  unfold add_optionals
  rw [foldl_addOpt_not_mem data _ _ "X" (by decide)]
  have hbase : List.lookup "X" [("X", xs), ("Y", ys), ("Z", zs)] = some xs := rfl
  rw [hbase]
  rfl

theorem assembled_lookup_y (data : Columns) (xs ys zs : List Int) :
    (add_optionals data [("X", xs), ("Y", ys), ("Z", zs)]
      ++ rgb_group data).lookup "Y" = some ys := by
  rw [lookup_append]
  unfold add_optionals
  rw [foldl_addOpt_not_mem data _ _ "Y" (by decide)]
  have hbase : List.lookup "Y" [("X", xs), ("Y", ys), ("Z", zs)] = some ys := rfl
  rw [hbase]
  rfl

theorem assembled_lookup_z (data : Columns) (xs ys zs : List Int) :
    (add_optionals data [("X", xs), ("Y", ys), ("Z", zs)]
      ++ rgb_group data).lookup "Z" = some zs := by
  rw [lookup_append]
  unfold add_optionals
  rw [foldl_addOpt_not_mem data _ _ "Z" (by decide)]
  have hbase : List.lookup "Z" [("X", xs), ("Y", ys), ("Z", zs)] = some zs := rfl
  rw [hbase]
  rfl

theorem assembled_lookup_opt (data : Columns) (xs ys zs : List Int) (k : String)
    (hopt : k ∈ optional_fields) :
    (add_optionals data [("X", xs), ("Y", ys), ("Z", zs)]
      ++ rgb_group data).lookup k = data.lookup k := by
  obtain ⟨h1, h2, h3, h4, h5, h6⟩ := optional_fields_ne_special k hopt
  rw [lookup_append]
  unfold add_optionals
  rw [foldl_addOpt_mem data optional_fields _ k optional_fields_nodup hopt
    (lookup_xyz_ne _ _ _ _ h1 h2 h3)]
  rw [rgb_group_lookup_ne data k h4 h5 h6]
  cases data.lookup k <;> rfl

theorem assembled_lookup_other (data : Columns) (xs ys zs : List Int) (k : String)
    (hX : k ≠ "X") (hY : k ≠ "Y") (hZ : k ≠ "Z") (hopt : k ∉ optional_fields) :
    (add_optionals data [("X", xs), ("Y", ys), ("Z", zs)]
      ++ rgb_group data).lookup k = (rgb_group data).lookup k := by
  rw [lookup_append]
  unfold add_optionals
  rw [foldl_addOpt_not_mem data _ _ k hopt, lookup_xyz_ne _ _ _ _ hX hY hZ]
  rfl

/-! ## Bridge from Python `int()` truncation to the floor function -/

theorem py_int_half_eq_floor (m : Rat) (h : 0 ≤ m) : py_int_half m = ⌊m / 2⌋ := by
  have h1 : m / 2 = ((m.num : ℚ) / ((2 * m.den : ℕ) : ℚ)) := by
    conv_lhs => rw [← Rat.num_div_den m]
    push_cast
    rw [div_div]
    ring_nf
  rw [h1, Rat.floor_intCast_div_natCast]
  unfold py_int_half
  rw [Int.tdiv_eq_ediv (Rat.num_nonneg.mpr h) (by positivity)]
  congr 1

/-! ## Claim theorems -/

/-- C2: on the forward path every dataset written for a dimension has chunk
length `min(N, 1,000,000)` where `N` is that dimension's array length; in
particular `N = 2,500,000` yields chunk length `1,000,000` and
`N = 500,000` yields chunk length `500,000`. -/
theorem claim_C2_chunk_length :
    (∀ (view : Columns) (meta : String) (n : String) (vs : List Int) (ch : Nat),
      (n, DsetVal.column vs ch) ∈ convert_las_to_hdf5 view meta →
      ch = min vs.length 1000000)
    ∧ chunk_size 2500000 = 1000000 ∧ chunk_size 500000 = 500000 := by
  refine ⟨?_, by decide, by decide⟩
  intro view meta n vs ch h
  unfold convert_las_to_hdf5 at h
  rw [List.mem_append] at h
  rcases h with h | h
  · rw [List.mem_map] at h
    obtain ⟨nv, _, heq⟩ := h
    rw [Prod.mk.injEq] at heq
    obtain ⟨-, h2⟩ := heq
    rw [DsetVal.column.injEq] at h2
    obtain ⟨hvs, hch⟩ := h2
    rw [← hch, ← hvs]
    rfl
  · simp at h

/-- C2 witness: the writer run on a one-point `X` column records chunk
length `1 = min 1 1000000`. -/
theorem claim_C2_chunk_length_witness :
    ("X", DsetVal.column [0] 1) ∈ convert_las_to_hdf5 [("X", [0])] ""
    ∧ 1 = min ([0] : List Int).length 1000000 :=
  ⟨by decide, claim_C2_chunk_length.1 [("X", [0])] "" "X" [0] 1 (by decide)⟩

/-- C3: the assembler copies the color group `Red`/`Green`/`Blue` into the
output iff all three columns are present; if any member is absent the whole
group is omitted and no partial color channel appears. -/
theorem claim_C3_rgb_all_or_nothing :
    ∀ (data out : Columns), assemble_las data = .ok out →
      ((((data.lookup "Red").isSome ∧ (data.lookup "Green").isSome
          ∧ (data.lookup "Blue").isSome) →
        (out.lookup "Red" = data.lookup "Red"
          ∧ out.lookup "Green" = data.lookup "Green"
          ∧ out.lookup "Blue" = data.lookup "Blue"))
      ∧ ((¬ ((data.lookup "Red").isSome ∧ (data.lookup "Green").isSome
          ∧ (data.lookup "Blue").isSome)) →
        (out.lookup "Red" = none ∧ out.lookup "Green" = none
          ∧ out.lookup "Blue" = none))) := by
  intro data out h
  unfold assemble_las at h
  cases hx : data.lookup "X" <;> rw [hx] at h
  · exact Except.noConfusion h
  cases hy : data.lookup "Y" <;> rw [hy] at h
  · exact Except.noConfusion h
  cases hz : data.lookup "Z" <;> rw [hz] at h
  · exact Except.noConfusion h
  injection h with h'
  subst h'
  constructor
  · rintro ⟨hr, hg, hb⟩
    obtain ⟨r, hr'⟩ := Option.isSome_iff_exists.mp hr
    obtain ⟨g, hg'⟩ := Option.isSome_iff_exists.mp hg
    obtain ⟨b, hb'⟩ := Option.isSome_iff_exists.mp hb
    have hrgb := rgb_group_all data r g b hr' hg' hb'
    refine ⟨?_, ?_, ?_⟩
    · rw [assembled_lookup_other data _ _ _ "Red" (by decide) (by decide)
        (by decide) (by decide), hrgb, hr']
      rfl
    · rw [assembled_lookup_other data _ _ _ "Green" (by decide) (by decide)
        (by decide) (by decide), hrgb, hg']
      rfl
    · rw [assembled_lookup_other data _ _ _ "Blue" (by decide) (by decide)
        (by decide) (by decide), hrgb, hb']
      rfl
  · intro hn
    simp only [not_and_or, Option.not_isSome_iff_eq_none] at hn
    have hrgb : rgb_group data = [] := rgb_group_not_all data hn
    refine ⟨?_, ?_, ?_⟩
    · rw [assembled_lookup_other data _ _ _ "Red" (by decide) (by decide)
        (by decide) (by decide), hrgb]
      rfl
    · rw [assembled_lookup_other data _ _ _ "Green" (by decide) (by decide)
        (by decide) (by decide), hrgb]
      rfl
    · rw [assembled_lookup_other data _ _ _ "Blue" (by decide) (by decide)
        (by decide) (by decide), hrgb]
      rfl

/-- C3 witness: with `Green` and `Blue` present but `Red` absent, the
assembled cloud carries none of the three color channels. -/
theorem claim_C3_rgb_all_or_nothing_witness :
    List.lookup "Red"
        [("X", ([1] : List Int)), ("Y", [2]), ("Z", [3]),
         ("Green", [5]), ("Blue", [6])] = none
    ∧ (List.lookup "Red" ([("X", [1]), ("Y", [2]), ("Z", [3])] : Columns) = none
      ∧ List.lookup "Green" ([("X", [1]), ("Y", [2]), ("Z", [3])] : Columns) = none
      ∧ List.lookup "Blue" ([("X", [1]), ("Y", [2]), ("Z", [3])] : Columns) = none) :=
  ⟨rfl,
    (claim_C3_rgb_all_or_nothing
      [("X", [1]), ("Y", [2]), ("Z", [3]), ("Green", [5]), ("Blue", [6])]
      [("X", [1]), ("Y", [2]), ("Z", [3])] rfl).2 (by decide)⟩

/-- C4: on the inverse path, once the container's datasets have been read
into columns, a missing required `X`, `Y` or `Z` column makes the
conversion fail with the schema error naming the first missing required
dimension, and no LAS file is produced (the failure precedes the write). -/
theorem claim_C4_missing_required :
    ∀ (file : Container) (data : Columns),
      read_data file = .ok data →
      (∃ s, read_metadata file = .ok s) →
      (data.lookup "X" = none ∨ data.lookup "Y" = none
        ∨ data.lookup "Z" = none) →
      convert_hdf5_to_las file = .error (ConvErr.schemaError (first_missing data))
      ∧ conv_ok (convert_hdf5_to_las file) = false := by
  intro file data hread hmeta hmiss
  obtain ⟨s, hs⟩ := hmeta
  have herr : assemble_las data
      = .error (ConvErr.schemaError (first_missing data)) := by
    by_cases hX : data.lookup "X" = none
    · simp [assemble_las, first_missing, hX]
    · obtain ⟨xs, hxs⟩ := Option.ne_none_iff_exists'.mp hX
      by_cases hY : data.lookup "Y" = none
      · simp [assemble_las, first_missing, hxs, hY]
      · obtain ⟨ys, hys⟩ := Option.ne_none_iff_exists'.mp hY
        have hZ : data.lookup "Z" = none := by
          rcases hmiss with h | h | h
          · exact absurd h hX
          · exact absurd h hY
          · exact h
        simp [assemble_las, first_missing, hxs, hys, hZ]
  have hconv : convert_hdf5_to_las file
      = .error (ConvErr.schemaError (first_missing data)) := by
    simp [convert_hdf5_to_las, hread, hs, herr]
  exact ⟨hconv, by rw [hconv]; rfl⟩

/-- C4 witness: a container with only `Y` and `Z` columns fails with the
schema error for `X` and produces no output. -/
theorem claim_C4_missing_required_witness :
    convert_hdf5_to_las [("Y", DsetVal.column [2] 1), ("Z", DsetVal.column [3] 1)]
      = .error (ConvErr.schemaError "X")
    ∧ conv_ok (convert_hdf5_to_las
        [("Y", DsetVal.column [2] 1), ("Z", DsetVal.column [3] 1)]) = false :=
  claim_C4_missing_required
    [("Y", DsetVal.column [2] 1), ("Z", DsetVal.column [3] 1)]
    [("Y", [2]), ("Z", [3])] rfl ⟨emptyMetadata, rfl⟩ (Or.inl rfl)

/-- C5: the dispatcher selects the pipeline purely from the lower-cased
path extensions — `.las → .hdf5` runs the forward pipeline, `.hdf5 → .las`
the inverse — and any other pairing yields the unsupported-conversion
failure whose value is independent of both pipelines (no pipeline, hence no
filesystem access, is invoked). -/
theorem claim_C5_dispatch :
    ∀ (fwd inv fwd2 inv2 : String → String → Bool) (input_file output_file : String),
      ((py_endswith (py_lower input_file) ".las"
          && py_endswith (py_lower output_file) ".hdf5") = true →
        convert_single_file fwd inv input_file output_file
          = DispatchResult.ranForward (fwd input_file output_file))
      ∧ ((py_endswith (py_lower input_file) ".las"
          && py_endswith (py_lower output_file) ".hdf5") = false →
        (py_endswith (py_lower input_file) ".hdf5"
          && py_endswith (py_lower output_file) ".las") = true →
        convert_single_file fwd inv input_file output_file
          = DispatchResult.ranInverse (inv input_file output_file))
      ∧ ((py_endswith (py_lower input_file) ".las"
          && py_endswith (py_lower output_file) ".hdf5") = false →
        (py_endswith (py_lower input_file) ".hdf5"
          && py_endswith (py_lower output_file) ".las") = false →
        convert_single_file fwd inv input_file output_file
          = DispatchResult.unsupported
        ∧ convert_single_file fwd inv input_file output_file
          = convert_single_file fwd2 inv2 input_file output_file) := by
  intro fwd inv fwd2 inv2 input_file output_file
  refine ⟨?_, ?_, ?_⟩
  · intro h1
    simp [convert_single_file, h1]
  · intro h1 h2
    simp [convert_single_file, h1, h2]
  · intro h1 h2
    constructor
    · simp [convert_single_file, h1, h2]
    · simp [convert_single_file, h1, h2]

/-- C5 witness: `a.las → b.hdf5` runs the forward pipeline, and the
unsupported pairing `a.txt → b.hdf5` is rejected identically under two
different pipeline pairs. -/
theorem claim_C5_dispatch_witness :
    convert_single_file (fun _ _ => true) (fun _ _ => false) "a.las" "b.hdf5"
      = DispatchResult.ranForward true
    ∧ convert_single_file (fun _ _ => true) (fun _ _ => false) "a.txt" "b.hdf5"
      = DispatchResult.unsupported
    ∧ convert_single_file (fun _ _ => true) (fun _ _ => false) "a.txt" "b.hdf5"
      = convert_single_file (fun _ _ => false) (fun _ _ => true) "a.txt" "b.hdf5" :=
  ⟨(claim_C5_dispatch (fun _ _ => true) (fun _ _ => false)
      (fun _ _ => false) (fun _ _ => true) "a.las" "b.hdf5").1 (by decide),
   ((claim_C5_dispatch (fun _ _ => true) (fun _ _ => false)
      (fun _ _ => false) (fun _ _ => true) "a.txt" "b.hdf5").2.2
      (by decide) (by decide)).1,
   ((claim_C5_dispatch (fun _ _ => true) (fun _ _ => false)
      (fun _ _ => false) (fun _ _ => true) "a.txt" "b.hdf5").2.2
      (by decide) (by decide)).2⟩

/-- C6: on the inverse path, a container without a `metadata` dataset reads
as the empty metadata blob (a success, never an error), and a present
scalar `metadata` dataset reads as the stored blob. -/
theorem claim_C6_metadata_blob :
    ∀ (file : Container),
      (file.lookup "metadata" = none → read_metadata file = .ok emptyMetadata)
      ∧ (∀ s, file.lookup "metadata" = some (DsetVal.scalar s) →
          read_metadata file = .ok s) := by
  intro file
  constructor
  · intro h
    unfold read_metadata
    rw [h]
  · intro s h
    unfold read_metadata
    rw [h]

/-- C6 witness: a container holding only an `X` column reads the empty
metadata blob; one holding a scalar `metadata` dataset reads its payload. -/
theorem claim_C6_metadata_blob_witness :
    read_metadata [("X", DsetVal.column [1] 1)] = .ok emptyMetadata
    ∧ read_metadata [("X", DsetVal.column [1] 1),
        ("metadata", DsetVal.scalar "blob")] = .ok "blob" :=
  ⟨(claim_C6_metadata_blob [("X", DsetVal.column [1] 1)]).1 rfl,
   (claim_C6_metadata_blob [("X", DsetVal.column [1] 1),
      ("metadata", DsetVal.scalar "blob")]).2 "blob" rfl⟩

/-- C7: the reader loads every dataset of the container except the one
named exactly `metadata` as a typed column under its exact dataset name;
`metadata` never appears as a dimension, and the name test is exact and
case-sensitive (so e.g. `Metadata` is loaded). -/
theorem claim_C7_reader_exact :
    ∀ (file : Container) (data : Columns), read_data file = .ok data →
      ((∀ vs, ("metadata", vs) ∉ data)
      ∧ (∀ (k : String) (vs : List Int) (ch : Nat), k ≠ "metadata" →
          (k, DsetVal.column vs ch) ∈ file → (k, vs) ∈ data)
      ∧ (∀ (k : String) (vs : List Int), (k, vs) ∈ data →
          ∃ ch, (k, DsetVal.column vs ch) ∈ file)) := by
  intro file data h
  have hd := read_data_ok_eq file data h
  subst hd
  refine ⟨?_, ?_, ?_⟩
  · intro vs hmem
    rw [List.mem_filterMap] at hmem
    obtain ⟨⟨k, v⟩, -, heq⟩ := hmem
    by_cases hk : k = "metadata"
    · rw [if_pos hk] at heq
      exact Option.noConfusion heq
    · rw [if_neg hk] at heq
      cases v with
      | column vs' ch =>
        simp only [Option.some.injEq, Prod.mk.injEq] at heq
        exact hk heq.1
      | scalar s => exact Option.noConfusion heq
  · intro k vs ch hk hmem
    rw [List.mem_filterMap]
    exact ⟨(k, DsetVal.column vs ch), hmem, by rw [if_neg hk]⟩
  · intro k vs hmem
    rw [List.mem_filterMap] at hmem
    obtain ⟨⟨k', v⟩, hmem', heq⟩ := hmem
    by_cases hk : k' = "metadata"
    · rw [if_pos hk] at heq
      exact Option.noConfusion heq
    · rw [if_neg hk] at heq
      cases v with
      | column vs' ch =>
        simp only [Option.some.injEq, Prod.mk.injEq] at heq
        obtain ⟨rfl, rfl⟩ := heq
        exact ⟨ch, hmem'⟩
      | scalar s => exact Option.noConfusion heq

/-- C7 witness: `Metadata` (capital `M`) is loaded as a dimension while
`metadata` is excluded. -/
theorem claim_C7_reader_exact_witness :
    ("Metadata", ([5] : List Int)) ∈ ([("Metadata", [5]), ("X", [1])] : Columns)
    ∧ ("metadata", ([9] : List Int)) ∉ ([("Metadata", [5]), ("X", [1])] : Columns) :=
  ⟨(claim_C7_reader_exact
      [("Metadata", DsetVal.column [5] 1), ("metadata", DsetVal.scalar "m"),
       ("X", DsetVal.column [1] 1)]
      [("Metadata", [5]), ("X", [1])] rfl).2.1
      "Metadata" [5] 1 (by decide) (by decide),
   (claim_C7_reader_exact
      [("Metadata", DsetVal.column [5] 1), ("metadata", DsetVal.scalar "m"),
       ("X", DsetVal.column [1] 1)]
      [("Metadata", [5]), ("X", [1])] rfl).1 [9]⟩

/-- C8: the summary block of `main` evaluated on both outcomes: a
successful conversion prints the completion message and the process exits
with status 0, and a failed conversion prints the diagnostic yet the
process also exits with status 0 — the code never maps failure to a
non-zero exit status. -/
theorem claim_C8_exit_status :
    main_summary true = ("Conversion completed successfully.", 0)
    ∧ main_summary false = ("Conversion failed.", 0) :=
  ⟨rfl, rfl⟩

/-- C9 counterexample: with requested process count 4 and
`--max-memory 1`, the effective count is `min(4, int(1/2)) = 0`,
violating the claimed floor of one worker. -/
theorem claim_C9_counterexample :
    adjusted_num_processes 4 (some 1) = 0
    ∧ ¬ (1 ≤ adjusted_num_processes 4 (some 1)) := by
  constructor
  · decide
  · decide

/-- C9 (amended): for a nonnegative memory budget `m`, the effective
process count is exactly `min(p, floor(m / 2.0))` and the cap never
increases the requested count; there is no floor of one worker. -/
theorem claim_C9_memory_cap :
    ∀ (p : Int) (m : Rat), 0 ≤ m →
      adjusted_num_processes p (some m) = min p ⌊m / 2⌋
      ∧ adjusted_num_processes p (some m) ≤ p := by
  intro p m h
  simp only [adjusted_num_processes]
  rw [py_int_half_eq_floor m h]
  exact ⟨rfl, min_le_left _ _⟩

/-- C9 witness: requested count 4 with a 5 GB budget is capped to
`min(4, floor(5/2))`, not above 4. -/
theorem claim_C9_memory_cap_witness :
    adjusted_num_processes 4 (some 5) = min 4 ⌊(5 : ℚ) / 2⌋
    ∧ adjusted_num_processes 4 (some 5) ≤ 4 :=
  claim_C9_memory_cap 4 5 (by decide)

/-- C10: `main` selects the pipeline solely from the `--to-las` flag —
flag set runs the HDF5→LAS pipeline, flag clear runs the LAS→HDF5
pipeline — and two argument records agreeing on the flag select the same
pipeline regardless of their file paths. -/
theorem claim_C10_flag_only :
    ∀ (a b : Args),
      (a.to_las = true → main_pipeline_choice a = Pipeline.hdf5ToLas)
      ∧ (a.to_las = false → main_pipeline_choice a = Pipeline.lasToHdf5)
      ∧ (a.to_las = b.to_las → main_pipeline_choice a = main_pipeline_choice b) := by
  intro a b
  refine ⟨?_, ?_, ?_⟩
  · intro h
    simp [main_pipeline_choice, h]
  · intro h
    simp [main_pipeline_choice, h]
  · intro h
    unfold main_pipeline_choice
    rw [h]

/-- C10 witness: with the flag set, `main` runs HDF5→LAS even for a
`.las → .hdf5` path pair, and two flag-equal argument records with
entirely different paths select the same pipeline. -/
theorem claim_C10_flag_only_witness :
    main_pipeline_choice ⟨"in.las", "out.hdf5", true, 1, none⟩ = Pipeline.hdf5ToLas
    ∧ main_pipeline_choice ⟨"a.las", "b.hdf5", false, 1, none⟩ = Pipeline.lasToHdf5
    ∧ main_pipeline_choice ⟨"a.las", "b.hdf5", true, 1, none⟩
      = main_pipeline_choice ⟨"c.hdf5", "d.las", true, 1, none⟩ :=
  ⟨(claim_C10_flag_only ⟨"in.las", "out.hdf5", true, 1, none⟩
      ⟨"c.hdf5", "d.las", true, 1, none⟩).1 rfl,
   (claim_C10_flag_only ⟨"a.las", "b.hdf5", false, 1, none⟩
      ⟨"c.hdf5", "d.las", true, 1, none⟩).2.1 rfl,
   (claim_C10_flag_only ⟨"a.las", "b.hdf5", true, 1, none⟩
      ⟨"c.hdf5", "d.las", true, 1, none⟩).2.2 rfl⟩

/-- C1 counterexample: the claim fails as stated.  For the point cloud with
dimension set `{X, Y, Z, Red}` (one point, values 1,2,3,4), the forward
conversion followed by the inverse conversion succeeds but drops the `Red`
dimension entirely — its value is not preserved (the inverse path's color
group requires all of `Red`, `Green`, `Blue`). -/
theorem claim_C1_counterexample :
    convert_hdf5_to_las
        (convert_las_to_hdf5 [("X", [1]), ("Y", [2]), ("Z", [3]), ("Red", [4])] "m")
      = .ok [("X", [1]), ("Y", [2]), ("Z", [3])]
    ∧ List.lookup "Red"
        [("X", ([1] : List Int)), ("Y", [2]), ("Z", [3]), ("Red", [4])] = some [4]
    ∧ List.lookup "Red" ([("X", [1]), ("Y", [2]), ("Z", [3])] : Columns) = none :=
  ⟨rfl, rfl, rfl⟩

/-- C1 (amended): for every point cloud whose dimension names avoid the
reserved name `metadata` and contain `X`, `Y` and `Z`, the forward
conversion followed by the inverse conversion succeeds and preserves every
value of every dimension the inverse path's fixed schema handles — `X`,
`Y`, `Z`, each present optional dimension, and the color group when all of
`Red`, `Green`, `Blue` are present — exactly (integer payloads are exact
and the encoder's coordinate grid is modelled as exact, i.e. within its
fixed coordinate precision); every other dimension is dropped from the
output. -/
theorem claim_C1_roundtrip :
    ∀ (view : Columns) (meta : String) (xs ys zs : List Int),
      "metadata" ∉ view.map Prod.fst →
      view.lookup "X" = some xs →
      view.lookup "Y" = some ys →
      view.lookup "Z" = some zs →
      conv_ok (convert_hdf5_to_las (convert_las_to_hdf5 view meta)) = true
      ∧ (∀ d, d ∈ handled_dims view →
          conv_lookup (convert_hdf5_to_las (convert_las_to_hdf5 view meta)) d
            = view.lookup d)
      ∧ (∀ d, d ∉ handled_dims view →
          conv_lookup (convert_hdf5_to_las (convert_las_to_hdf5 view meta)) d
            = none) := by
  intro view meta xs ys zs hmeta hx hy hz
  have hconv : convert_hdf5_to_las (convert_las_to_hdf5 view meta)
      = .ok (add_optionals view [("X", xs), ("Y", ys), ("Z", zs)]
          ++ rgb_group view) := by
    simp [convert_hdf5_to_las, read_data_forward view meta hmeta,
      read_metadata_forward view meta hmeta, assemble_las_ok view xs ys zs hx hy hz]
  rw [hconv]
  refine ⟨rfl, ?_, ?_⟩
  · intro d hd
    show (add_optionals view [("X", xs), ("Y", ys), ("Z", zs)]
        ++ rgb_group view).lookup d = view.lookup d
    unfold handled_dims at hd
    rw [List.mem_append, List.mem_append] at hd
    rcases hd with (hd | hd) | hd
    · simp only [List.mem_cons, List.not_mem_nil, or_false] at hd
      rcases hd with rfl | rfl | rfl
      · rw [assembled_lookup_x, hx]
      · rw [assembled_lookup_y, hy]
      · rw [assembled_lookup_z, hz]
    · exact assembled_lookup_opt view xs ys zs d (List.mem_filter.mp hd).1
    · by_cases hc : ((view.lookup "Red").isSome ∧ (view.lookup "Green").isSome
          ∧ (view.lookup "Blue").isSome)
      · rw [if_pos hc] at hd
        obtain ⟨r, hr⟩ := Option.isSome_iff_exists.mp hc.1
        obtain ⟨g, hg⟩ := Option.isSome_iff_exists.mp hc.2.1
        obtain ⟨b, hb⟩ := Option.isSome_iff_exists.mp hc.2.2
        have hrgb := rgb_group_all view r g b hr hg hb
        simp only [List.mem_cons, List.not_mem_nil, or_false] at hd
        rcases hd with rfl | rfl | rfl
        · rw [assembled_lookup_other view xs ys zs "Red" (by decide) (by decide)
            (by decide) (by decide), hrgb, hr]
          rfl
        · rw [assembled_lookup_other view xs ys zs "Green" (by decide) (by decide)
            (by decide) (by decide), hrgb, hg]
          rfl
        · rw [assembled_lookup_other view xs ys zs "Blue" (by decide) (by decide)
            (by decide) (by decide), hrgb, hb]
          rfl
      · rw [if_neg hc] at hd
        exact absurd hd (List.not_mem_nil d)
  · intro d hd
    show (add_optionals view [("X", xs), ("Y", ys), ("Z", zs)]
        ++ rgb_group view).lookup d = none
    unfold handled_dims at hd
    rw [List.mem_append, List.mem_append] at hd
    push_neg at hd
    obtain ⟨⟨hd1, hd2⟩, hd3⟩ := hd
    have hdXYZ : d ≠ "X" ∧ d ≠ "Y" ∧ d ≠ "Z" := by
      refine ⟨?_, ?_, ?_⟩ <;> rintro rfl <;> exact hd1 (by decide)
    by_cases hopt : d ∈ optional_fields
    · have hnone : view.lookup d = none := by
        by_contra hsome
        exact hd2 (List.mem_filter.mpr
          ⟨hopt, by simpa [Option.isSome_iff_ne_none] using hsome⟩)
      rw [assembled_lookup_opt view xs ys zs d hopt, hnone]
    · rw [assembled_lookup_other view xs ys zs d hdXYZ.1 hdXYZ.2.1 hdXYZ.2.2 hopt]
      by_cases hc : ((view.lookup "Red").isSome ∧ (view.lookup "Green").isSome
          ∧ (view.lookup "Blue").isSome)
      · rw [if_pos hc] at hd3
        have hdRGB : d ≠ "Red" ∧ d ≠ "Green" ∧ d ≠ "Blue" := by
          refine ⟨?_, ?_, ?_⟩ <;> rintro rfl <;> exact hd3 (by decide)
        exact rgb_group_lookup_ne view d hdRGB.1 hdRGB.2.1 hdRGB.2.2
      · have hdisj := hc
        simp only [not_and_or, Option.not_isSome_iff_eq_none] at hdisj
        rw [rgb_group_not_all view hdisj]
        rfl

/-- C1 witness: a seven-dimension cloud (`X,Y,Z,Intensity,Red,Green,Blue`)
round-trips successfully, preserving `Intensity` (and the full color
group), while the unhandled dimension name `GpsTime` stays absent. -/
theorem claim_C1_roundtrip_witness :
    conv_ok (convert_hdf5_to_las (convert_las_to_hdf5
      [("X", [1]), ("Y", [2]), ("Z", [3]), ("Intensity", [7]),
       ("Red", [4]), ("Green", [5]), ("Blue", [6])] "w")) = true
    ∧ conv_lookup (convert_hdf5_to_las (convert_las_to_hdf5
        [("X", [1]), ("Y", [2]), ("Z", [3]), ("Intensity", [7]),
         ("Red", [4]), ("Green", [5]), ("Blue", [6])] "w")) "Intensity"
      = List.lookup "Intensity"
          [("X", ([1] : List Int)), ("Y", [2]), ("Z", [3]), ("Intensity", [7]),
           ("Red", [4]), ("Green", [5]), ("Blue", [6])]
    ∧ conv_lookup (convert_hdf5_to_las (convert_las_to_hdf5
        [("X", [1]), ("Y", [2]), ("Z", [3]), ("Intensity", [7]),
         ("Red", [4]), ("Green", [5]), ("Blue", [6])] "w")) "GpsTime"
      = none :=
  ⟨(claim_C1_roundtrip
      [("X", [1]), ("Y", [2]), ("Z", [3]), ("Intensity", [7]),
       ("Red", [4]), ("Green", [5]), ("Blue", [6])] "w" [1] [2] [3]
      (by decide) rfl rfl rfl).1,
   (claim_C1_roundtrip
      [("X", [1]), ("Y", [2]), ("Z", [3]), ("Intensity", [7]),
       ("Red", [4]), ("Green", [5]), ("Blue", [6])] "w" [1] [2] [3]
      (by decide) rfl rfl rfl).2.1 "Intensity" (by decide),
   (claim_C1_roundtrip
      [("X", [1]), ("Y", [2]), ("Z", [3]), ("Intensity", [7]),
       ("Red", [4]), ("Green", [5]), ("Blue", [6])] "w" [1] [2] [3]
      (by decide) rfl rfl rfl).2.2 "GpsTime" (by decide)⟩

end Las2Hdf
